import Mathlib

/-!
Shallow embedding of the temp-logger repository's core: the checksum/decode
utility library (arduino-blink/utils/src/lib.rs) and the DHT20 sensor driver
(arduino-blink/src/dht20/dht20.rs).

Bytes are modelled as `Nat` values reduced mod 256 at the bus boundary.
The I2C bus is modelled as a script: a list of responses, one per bus
transaction, each either a transport error (`Except.error e`) or a list of
bytes the bus writes into the driver's buffer (`Except.ok bs`; short
responses leave the zero-initialised remainder of the buffer, mirroring the
Rust fixed-size zeroed buffers).  Driver operations consume the script in
order and additionally record a trace of the outward-visible actions
(writes, write-reads, reads, delays).  A run returns `none` when the script
is exhausted mid-operation (the unbounded poll loop in the source can
consume arbitrarily many responses); `some` outcomes carry the result, the
updated device state, the unconsumed script and the action trace.

The Rust `f32` scaling functions are embedded over exact rationals; at every
value the specification cites, the `f32` computation performs only exact
operations, so the rational model agrees with the source there.
-/

namespace TempLogger

/-! ### utils/src/lib.rs : CRC-8/NRSC-5 -/

/-- `CRC8_INITIAL` from utils/src/lib.rs. -/
def CRC8_INITIAL : Nat := 0xFF

/-- `CRC8_POLYNOMIAL` from utils/src/lib.rs (x^8 + x^5 + x^4 + 1). -/
def CRC8_POLYNOMIAL : Nat := 0x31

/-- One iteration of the inner bit loop of `compute_crc8`: if the most
significant bit of the 8-bit register is set, shift left (truncating to
8 bits, as Rust `u8` does) and XOR the polynomial, else just shift. -/
def crc8Shift (crc : Nat) : Nat :=
  if crc &&& 0x80 ≠ 0 then ((crc <<< 1) % 256) ^^^ CRC8_POLYNOMIAL
  else (crc <<< 1) % 256

/-- Processing of one input byte by `compute_crc8`: XOR the byte into the
register, then run the bit loop 8 times. -/
def crc8Byte (crc b : Nat) : Nat := crc8Shift^[8] (crc ^^^ b)

/-- `compute_crc8` from utils/src/lib.rs: fold the per-byte step over the
input, starting from `CRC8_INITIAL`. -/
def compute_crc8 (data : List Nat) : Nat := data.foldl crc8Byte CRC8_INITIAL

/-! ### utils/src/lib.rs : bit-field extraction and scaling -/

/-- `extract_readings` from utils/src/lib.rs.  Rust indexes the slice at
1..5 (`u8` values cast to `u32`; no truncation can occur for byte inputs);
out-of-range indices are modelled with default 0, matching the claims'
precondition that at least 6 bytes are supplied. -/
def extract_readings (data : List Nat) : Nat × Nat :=
  let raw_humidity : Nat :=
    ((data.getD 1 0) <<< 12) ||| ((data.getD 2 0) <<< 4) ||| ((data.getD 3 0) >>> 4)
  let raw_temperature : Nat :=
    (((data.getD 3 0) &&& 0x0f) <<< 16) ||| ((data.getD 4 0) <<< 8) ||| (data.getD 5 0)
  (raw_humidity, raw_temperature)

/-- `convert_humidity` from utils/src/lib.rs, over exact rationals in place
of `f32`: raw / 2^20, times 100. -/
def convert_humidity (humidity : Nat) : ℚ := (humidity : ℚ) / 0x100000 * 100

/-- `convert_temperature` from utils/src/lib.rs, over exact rationals in
place of `f32`: raw / 2^20, times 200, minus 50. -/
def convert_temperature (temperature : Nat) : ℚ := (temperature : ℚ) / 0x100000 * 200 - 50

/-! ### dht20.rs : data model -/

/-- `DHTReading` from dht20.rs (temperature in Celsius, humidity in
percent), with `f32` fields embedded as rationals. -/
structure DHTReading where
  temperature : ℚ
  humidity : ℚ
deriving DecidableEq, Repr

/-- `DHTReading::new` from dht20.rs. -/
def DHTReading.new (temperature humidity : ℚ) : DHTReading :=
  { temperature := temperature, humidity := humidity }

/-- `DHT20Error` from dht20.rs: transport error wrapping the bus error,
checksum mismatch, or use before a successful `init`. -/
inductive DHT20Error (E : Type) where
  | I2C (err : E)
  | CrcMismatch
  | NotInitialized
deriving DecidableEq, Repr

/-- The opcode byte `CheckStatus = 0x71` from dht20.rs. -/
def OpCode.CheckStatus : Nat := 0x71

/-- The opcode byte `TriggerMeasurement = 0xAC` from dht20.rs. -/
def OpCode.TriggerMeasurement : Nat := 0xAC

/-- The status mask `StatusReady = 0x80` from dht20.rs. -/
def OpCode.StatusReady : Nat := 0x80

/-- `I2C_ADDRESS = 0x38`, the fixed DHT20 bus address from dht20.rs. -/
def I2C_ADDRESS : Nat := 0x38

/-- `RESET_REGISTERS = [0x1B, 0x1C, 0x1E]` from dht20.rs. -/
def RESET_REGISTERS : List Nat := [0x1B, 0x1C, 0x1E]

/-- The driver state from dht20.rs's `Dht20` struct: the bus handle itself
is externalised into the response script, leaving the fixed address and the
`initialized` flag. -/
structure Dht20 where
  address : Nat
  initialized : Bool
deriving DecidableEq, Repr

/-- `Dht20::new` from dht20.rs: fixed address 0x38, flag cleared. -/
def Dht20.new : Dht20 := { address := I2C_ADDRESS, initialized := false }

/-! ### Bus model -/

/-- One outward-visible action of the driver: an I2C write, a combined
write-then-read (with the number of bytes read), a plain read, or a call to
the delay primitive with a duration in milliseconds. -/
inductive Action where
  | write (addr : Nat) (bytes : List Nat)
  | writeRead (addr : Nat) (bytes : List Nat) (readLen : Nat)
  | read (addr : Nat) (len : Nat)
  | delayMs (ms : Nat)
deriving DecidableEq, Repr

/-- A bus script: one entry per transaction, either a transport error or
the bytes the bus produces. -/
abbrev Script (E : Type) := List (Except E (List Nat))

/-- Outcome of a driver operation: the `Result` value, the device state
after the operation, the unconsumed tail of the script, and the trace of
actions performed (a failed transaction still appears in the trace). -/
structure Outcome (E α : Type) where
  result : Except (DHT20Error E) α
  dev : Dht20
  rest : Script E
  trace : List Action

/-- The driver's read buffers are fixed-size and zero-initialised; a bus
response of `bs` leaves the buffer holding the first `len` bytes of `bs`
(reduced to bytes) padded with the zeroes it was initialised with. -/
def fill (len : Nat) (resp : List Nat) : List Nat :=
  ((resp.map (· % 256)) ++ List.replicate len 0).take len

/-- Sequencing of driver steps, mirroring Rust's `?` operator: an error
outcome short-circuits (keeping its trace), a success feeds the value, the
updated device and the remaining script to the continuation; traces
concatenate.  Script exhaustion (`none`) propagates. -/
def bindO {E α β : Type} (o : Option (Outcome E α))
    (k : α → Dht20 → Script E → Option (Outcome E β)) : Option (Outcome E β) :=
  match o with
  | none => none
  | some out =>
    match out.result with
    | Except.error e => some ⟨Except.error e, out.dev, out.rest, out.trace⟩
    | Except.ok a =>
      match k a out.dev out.rest with
      | none => none
      | some out2 => some ⟨out2.result, out2.dev, out2.rest, out.trace ++ out2.trace⟩

/-- `self.i2c.write(self.address, bytes)`: consumes one script entry; a
transport error is wrapped as `DHT20Error::I2C`. -/
def busWrite {E : Type} (dev : Dht20) (bytes : List Nat) : Script E → Option (Outcome E Unit)
  | [] => none
  | r :: rest =>
    match r with
    | Except.error e =>
      some ⟨Except.error (DHT20Error.I2C e), dev, rest, [Action.write dev.address bytes]⟩
    | Except.ok _ =>
      some ⟨Except.ok (), dev, rest, [Action.write dev.address bytes]⟩

/-- `self.i2c.write_read(self.address, bytes, buffer)` with a buffer of
`len` zero-initialised bytes. -/
def busWriteRead {E : Type} (dev : Dht20) (bytes : List Nat) (len : Nat) :
    Script E → Option (Outcome E (List Nat))
  | [] => none
  | r :: rest =>
    match r with
    | Except.error e =>
      some ⟨Except.error (DHT20Error.I2C e), dev, rest, [Action.writeRead dev.address bytes len]⟩
    | Except.ok bs =>
      some ⟨Except.ok (fill len bs), dev, rest, [Action.writeRead dev.address bytes len]⟩

/-- `self.i2c.read(self.address, buffer)` with a buffer of `len`
zero-initialised bytes. -/
def busRead {E : Type} (dev : Dht20) (len : Nat) : Script E → Option (Outcome E (List Nat))
  | [] => none
  | r :: rest =>
    match r with
    | Except.error e =>
      some ⟨Except.error (DHT20Error.I2C e), dev, rest, [Action.read dev.address len]⟩
    | Except.ok bs =>
      some ⟨Except.ok (fill len bs), dev, rest, [Action.read dev.address len]⟩

/-- `delay.delay_ms(ms)`: no bus transaction, records the delay. -/
def doDelay {E : Type} (dev : Dht20) (ms : Nat) (resps : Script E) : Option (Outcome E Unit) :=
  some ⟨Except.ok (), dev, resps, [Action.delayMs ms]⟩

/-! ### dht20.rs : driver operations -/

/-- `Dht20::reset_register` from dht20.rs: write `[reg, 0x00, 0x00]`,
delay 5 ms, write `[reg]` / read back 3 bytes, delay 5 ms, write
`[0xB0 | reg, buffer[1], buffer[2]]`, delay 5 ms. -/
def reset_register {E : Type} (dev : Dht20) (reg : Nat) (resps : Script E) :
    Option (Outcome E Unit) :=
  bindO (busWrite dev [reg, 0x00, 0x00] resps) fun _ dev resps =>
  bindO (doDelay dev 5 resps) fun _ dev resps =>
  bindO (busWriteRead dev [reg] 3 resps) fun buffer dev resps =>
  bindO (doDelay dev 5 resps) fun _ dev resps =>
  bindO (busWrite dev [0xB0 ||| reg, buffer.getD 1 0, buffer.getD 2 0] resps) fun _ dev resps =>
  doDelay dev 5 resps

/-- The `for reg in RESET_REGISTERS` loop of `check_init`: reset each
register in order, stopping at the first error. -/
def reset_all {E : Type} (dev : Dht20) : List Nat → Script E → Option (Outcome E Unit)
  | [], resps => some ⟨Except.ok (), dev, resps, []⟩
  | reg :: regs, resps =>
    bindO (reset_register dev reg resps) fun _ dev resps => reset_all dev regs resps

/-- `Dht20::check_init` from dht20.rs: query the status byte with opcode
0x71; if `status & 0x18 != 0x18` recalibrate the three reset registers;
delay 10 ms; mark the device initialised. -/
def check_init {E : Type} (dev : Dht20) (resps : Script E) : Option (Outcome E Unit) :=
  bindO (busWriteRead dev [OpCode.CheckStatus] 1 resps) fun buffer dev resps =>
  let status := buffer.headD 0
  bindO (if status &&& 0x18 ≠ 0x18 then reset_all dev RESET_REGISTERS resps
         else some ⟨Except.ok (), dev, resps, []⟩) fun _ dev resps =>
  bindO (doDelay dev 10 resps) fun _ dev resps =>
  some ⟨Except.ok (), { dev with initialized := true }, resps, []⟩

/-- `Dht20::init` from dht20.rs: 100 ms power-up delay, then `check_init`. -/
def init {E : Type} (dev : Dht20) (resps : Script E) : Option (Outcome E Unit) :=
  bindO (doDelay dev 100 resps) fun _ dev resps =>
  check_init dev resps

/-- `Dht20::trigger_measurement` from dht20.rs: write
`[0xAC, 0x33, 0x00]`, then delay 80 ms. -/
def trigger_measurement {E : Type} (dev : Dht20) (resps : Script E) :
    Option (Outcome E Unit) :=
  bindO (busWrite dev [OpCode.TriggerMeasurement, 0x33, 0x00] resps) fun _ dev resps =>
  doDelay dev 80 resps

/-- `Dht20::wait_for_ready` from dht20.rs: poll the status byte with opcode
0x71 until bit 0x80 is clear; between consecutive polls the source invokes
`delay.delay_ms(0)` (a zero-length delay, despite its comment announcing
10 ms).  One script entry is consumed per poll, so the recursion is on the
script. -/
def wait_for_ready {E : Type} (dev : Dht20) : Script E → Option (Outcome E Unit)
  | [] => none
  | r :: rest =>
    match r with
    | Except.error e =>
      some ⟨Except.error (DHT20Error.I2C e), dev, rest,
        [Action.writeRead dev.address [OpCode.CheckStatus] 1]⟩
    | Except.ok bs =>
      if (fill 1 bs).headD 0 &&& OpCode.StatusReady = 0 then
        some ⟨Except.ok (), dev, rest,
          [Action.writeRead dev.address [OpCode.CheckStatus] 1]⟩
      else
        match wait_for_ready dev rest with
        | none => none
        | some out =>
          some ⟨out.result, out.dev, out.rest,
            Action.writeRead dev.address [OpCode.CheckStatus] 1 ::
              Action.delayMs 0 :: out.trace⟩

/-- `Dht20::read_measurement` from dht20.rs: read 7 bytes, compare byte 6
against `compute_crc8` of bytes 0..5, fail with `CrcMismatch` on a
difference, otherwise return the 6 payload bytes. -/
def read_measurement {E : Type} (dev : Dht20) (resps : Script E) :
    Option (Outcome E (List Nat)) :=
  bindO (busRead dev 7 resps) fun buffer dev resps =>
  let crc := buffer.getD 6 0
  let crc_check := compute_crc8 (buffer.take 6)
  if crc ≠ crc_check then some ⟨Except.error DHT20Error.CrcMismatch, dev, resps, []⟩
  else some ⟨Except.ok (buffer.take 6), dev, resps, []⟩

/-- `Dht20::take_reading` from dht20.rs: precondition check, trigger, poll,
fetch-and-validate, decode. -/
def take_reading {E : Type} (dev : Dht20) (resps : Script E) :
    Option (Outcome E DHTReading) :=
  if dev.initialized = false then
    some ⟨Except.error DHT20Error.NotInitialized, dev, resps, []⟩
  else
    bindO (trigger_measurement dev resps) fun _ dev resps =>
    bindO (wait_for_ready dev resps) fun _ dev resps =>
    bindO (read_measurement dev resps) fun data dev resps =>
    let raw := extract_readings data
    let humidity := convert_humidity raw.1
    let temperature := convert_temperature raw.2
    some ⟨Except.ok (DHTReading.new temperature humidity), dev, resps, []⟩

/-- `Dht20::read_raw` from dht20.rs: precondition check, trigger, poll,
fetch-and-validate; the 6 payload bytes are returned undecoded. -/
def read_raw {E : Type} (dev : Dht20) (resps : Script E) :
    Option (Outcome E (List Nat)) :=
  if dev.initialized = false then
    some ⟨Except.error DHT20Error.NotInitialized, dev, resps, []⟩
  else
    bindO (trigger_measurement dev resps) fun _ dev resps =>
    bindO (wait_for_ready dev resps) fun _ dev resps =>
    bindO (read_measurement dev resps) fun data dev resps =>
    some ⟨Except.ok data, dev, resps, []⟩

/-- The decode step of `take_reading` as a function of the raw payload:
`extract_readings` then `convert_humidity` / `convert_temperature`,
assembled with `DHTReading::new (temperature, humidity)`. -/
def decodeReading (data : List Nat) : DHTReading :=
  DHTReading.new (convert_temperature (extract_readings data).2)
    (convert_humidity (extract_readings data).1)

/-- Replace the result of an outcome, keeping device state, script tail and
trace: used to state that `take_reading` is `read_raw` followed by decoding. -/
def Outcome.mapResult {E α β : Type} (f : α → β) (o : Outcome E α) : Outcome E β :=
  ⟨o.result.map f, o.dev, o.rest, o.trace⟩

/-- The action trace of one `reset_register` run on register `reg` whose
three transactions all succeed, the read-back returning `rb`. -/
def regResetTrace (addr reg : Nat) (rb : List Nat) : List Action :=
  [Action.write addr [reg, 0x00, 0x00], Action.delayMs 5,
   Action.writeRead addr [reg] 3, Action.delayMs 5,
   Action.write addr [0xB0 ||| reg, (fill 3 rb).getD 1 0, (fill 3 rb).getD 2 0],
   Action.delayMs 5]

/-! ### Helper lemmas -/

theorem fill_length {len : Nat} {bs : List Nat} : (fill len bs).length = len := by
  simp [fill, List.length_take]

theorem bindO_eq_some {E α β : Type} {o : Option (Outcome E α)}
    {k : α → Dht20 → Script E → Option (Outcome E β)} {out : Outcome E β}
    (h : bindO o k = some out) :
    (∃ out1 e, o = some out1 ∧ out1.result = Except.error e ∧
      out = ⟨Except.error e, out1.dev, out1.rest, out1.trace⟩) ∨
    (∃ out1 a out2, o = some out1 ∧ out1.result = Except.ok a ∧
      k a out1.dev out1.rest = some out2 ∧
      out = ⟨out2.result, out2.dev, out2.rest, out1.trace ++ out2.trace⟩) := by
  cases ho : o with
  | none => rw [ho] at h; simp [bindO] at h
  | some out1 =>
    rw [ho] at h
    cases hr : out1.result with
    | error e =>
      left
      refine ⟨out1, e, rfl, hr, ?_⟩
      simp [bindO, hr] at h
      exact h.symm
    | ok a =>
      right
      cases hk : k a out1.dev out1.rest with
      | none => simp [bindO, hr, hk] at h
      | some out2 =>
        refine ⟨out1, a, out2, rfl, hr, hk, ?_⟩
        simp [bindO, hr, hk] at h
        exact h.symm

theorem bindO_map {E α β γ : Type} (o : Option (Outcome E α)) (f : β → γ)
    (k1 : α → Dht20 → Script E → Option (Outcome E β))
    (k2 : α → Dht20 → Script E → Option (Outcome E γ))
    (h : ∀ a d r, k2 a d r = (k1 a d r).map (Outcome.mapResult f)) :
    bindO o k2 = (bindO o k1).map (Outcome.mapResult f) := by
  cases o with
  | none => rfl
  | some out =>
    cases hr : out.result with
    | error e => simp [bindO, hr, Outcome.mapResult, Except.map]
    | ok a =>
      simp only [bindO, hr, h]
      cases k1 a out.dev out.rest with
      | none => rfl
      | some out2 => simp [Outcome.mapResult]

theorem busRead_ok_length {E : Type} {dev : Dht20} {len : Nat} {resps : Script E}
    {out : Outcome E (List Nat)} {a : List Nat}
    (h : busRead dev len resps = some out) (hr : out.result = Except.ok a) :
    a.length = len := by
  cases resps with
  | nil => simp [busRead] at h
  | cons r rest =>
    cases r with
    | error e =>
      simp [busRead] at h
      rw [← h] at hr
      simp at hr
    | ok bs =>
      simp [busRead] at h
      rw [← h] at hr
      simp at hr
      rw [← hr]
      exact fill_length

theorem bindO_dev {E α β : Type} {dev : Dht20} {o : Option (Outcome E α)}
    {k : α → Dht20 → Script E → Option (Outcome E β)}
    (h1 : ∀ out, o = some out → out.dev = dev)
    (h2 : ∀ a r out, k a dev r = some out → out.dev = dev) :
    ∀ out, bindO o k = some out → out.dev = dev := by
  intro out h
  rcases bindO_eq_some h with ⟨out1, e, ho, hr, rfl⟩ | ⟨out1, a, out2, ho, hr, hk, rfl⟩
  · exact h1 _ ho
  · have hd := h1 _ ho
    rw [hd] at hk
    simpa using h2 _ _ _ hk

theorem busWrite_dev {E : Type} {dev : Dht20} {bytes : List Nat} {resps : Script E} :
    ∀ out, busWrite dev bytes resps = some out → out.dev = dev := by
  intro out h
  cases resps with
  | nil => simp [busWrite] at h
  | cons r rest =>
    cases r with
    | error e => simp [busWrite] at h; subst h; rfl
    | ok bs => simp [busWrite] at h; subst h; rfl

theorem busWriteRead_dev {E : Type} {dev : Dht20} {bytes : List Nat} {len : Nat}
    {resps : Script E} :
    ∀ out, busWriteRead dev bytes len resps = some out → out.dev = dev := by
  intro out h
  cases resps with
  | nil => simp [busWriteRead] at h
  | cons r rest =>
    cases r with
    | error e => simp [busWriteRead] at h; subst h; rfl
    | ok bs => simp [busWriteRead] at h; subst h; rfl

theorem busRead_dev {E : Type} {dev : Dht20} {len : Nat} {resps : Script E} :
    ∀ out, busRead dev len resps = some out → out.dev = dev := by
  intro out h
  cases resps with
  | nil => simp [busRead] at h
  | cons r rest =>
    cases r with
    | error e => simp [busRead] at h; subst h; rfl
    | ok bs => simp [busRead] at h; subst h; rfl

theorem doDelay_dev {E : Type} {dev : Dht20} {ms : Nat} {resps : Script E} :
    ∀ out, doDelay dev ms resps = some out → out.dev = dev := by
  intro out h
  simp [doDelay] at h
  subst h
  rfl

theorem reset_register_dev {E : Type} {dev : Dht20} {reg : Nat} {resps : Script E} :
    ∀ out, reset_register dev reg resps = some out → out.dev = dev := by
  unfold reset_register
  refine bindO_dev busWrite_dev ?_
  intro _ r
  refine bindO_dev doDelay_dev ?_
  intro _ r
  refine bindO_dev busWriteRead_dev ?_
  intro buffer r
  refine bindO_dev doDelay_dev ?_
  intro _ r
  refine bindO_dev busWrite_dev ?_
  intro _ r
  exact doDelay_dev

theorem reset_all_dev {E : Type} {dev : Dht20} {regs : List Nat} {resps : Script E} :
    ∀ out, reset_all dev regs resps = some out → out.dev = dev := by
  induction regs generalizing resps with
  | nil =>
    intro out h
    simp [reset_all] at h
    subst h
    rfl
  | cons reg regs ih =>
    unfold reset_all
    refine bindO_dev reset_register_dev ?_
    intro _ r
    exact ih

theorem trigger_measurement_dev {E : Type} {dev : Dht20} {resps : Script E} :
    ∀ out, trigger_measurement dev resps = some out → out.dev = dev := by
  unfold trigger_measurement
  refine bindO_dev busWrite_dev ?_
  intro _ r
  exact doDelay_dev

theorem wait_for_ready_dev {E : Type} {dev : Dht20} {resps : Script E} :
    ∀ out, wait_for_ready dev resps = some out → out.dev = dev := by
  induction resps with
  | nil => intro out h; simp [wait_for_ready] at h
  | cons r rest ih =>
    intro out h
    cases r with
    | error e => simp [wait_for_ready] at h; subst h; rfl
    | ok bs =>
      simp only [wait_for_ready] at h
      by_cases hb : (fill 1 bs).headD 0 &&& OpCode.StatusReady = 0
      · rw [if_pos hb] at h
        simp at h
        subst h
        rfl
      · rw [if_neg hb] at h
        cases hw : wait_for_ready dev rest with
        | none => rw [hw] at h; simp at h
        | some out1 =>
          rw [hw] at h
          simp at h
          subst h
          simpa using ih _ hw

theorem read_measurement_dev {E : Type} {dev : Dht20} {resps : Script E} :
    ∀ out, read_measurement dev resps = some out → out.dev = dev := by
  unfold read_measurement
  refine bindO_dev busRead_dev ?_
  intro buffer r out h
  by_cases hc : buffer.getD 6 0 ≠ compute_crc8 (buffer.take 6)
  · rw [if_pos hc] at h; simp at h; subst h; rfl
  · rw [if_neg hc] at h; simp at h; subst h; rfl

theorem bindO_err {E α β : Type} {o : Option (Outcome E α)}
    {k : α → Dht20 → Script E → Option (Outcome E β)}
    (h1 : ∀ out e, o = some out → out.result = Except.error e → ∃ e0, e = DHT20Error.I2C e0)
    (h2 : ∀ a d r out e, k a d r = some out → out.result = Except.error e →
      ∃ e0, e = DHT20Error.I2C e0) :
    ∀ out e, bindO o k = some out → out.result = Except.error e →
      ∃ e0, e = DHT20Error.I2C e0 := by
  intro out e h hr
  rcases bindO_eq_some h with ⟨out1, e1, ho, hr1, rfl⟩ | ⟨out1, a, out2, ho, hr1, hk, rfl⟩
  · simp at hr
    subst hr
    exact h1 _ _ ho hr1
  · simp at hr
    exact h2 _ _ _ _ _ hk hr

theorem busWrite_err {E : Type} {dev : Dht20} {bytes : List Nat} {resps : Script E} :
    ∀ out e, busWrite dev bytes resps = some out → out.result = Except.error e →
      ∃ e0, e = DHT20Error.I2C e0 := by
  intro out e h hr
  cases resps with
  | nil => simp [busWrite] at h
  | cons r rest =>
    cases r with
    | error e1 =>
      simp [busWrite] at h
      subst h
      simp at hr
      exact ⟨e1, hr.symm⟩
    | ok bs =>
      simp [busWrite] at h
      subst h
      simp at hr

theorem busWriteRead_err {E : Type} {dev : Dht20} {bytes : List Nat} {len : Nat}
    {resps : Script E} :
    ∀ out e, busWriteRead dev bytes len resps = some out → out.result = Except.error e →
      ∃ e0, e = DHT20Error.I2C e0 := by
  intro out e h hr
  cases resps with
  | nil => simp [busWriteRead] at h
  | cons r rest =>
    cases r with
    | error e1 =>
      simp [busWriteRead] at h
      subst h
      simp at hr
      exact ⟨e1, hr.symm⟩
    | ok bs =>
      simp [busWriteRead] at h
      subst h
      simp at hr

theorem doDelay_err {E : Type} {dev : Dht20} {ms : Nat} {resps : Script E} :
    ∀ out e, doDelay dev ms resps = some out → out.result = Except.error e →
      ∃ e0, e = DHT20Error.I2C e0 := by
  intro out e h hr
  simp [doDelay] at h
  subst h
  simp at hr

theorem reset_register_err {E : Type} {dev : Dht20} {reg : Nat} {resps : Script E} :
    ∀ out e, reset_register dev reg resps = some out → out.result = Except.error e →
      ∃ e0, e = DHT20Error.I2C e0 := by
  unfold reset_register
  refine bindO_err busWrite_err ?_
  intro _ d r
  refine bindO_err doDelay_err ?_
  intro _ d r
  refine bindO_err busWriteRead_err ?_
  intro buffer d r
  refine bindO_err doDelay_err ?_
  intro _ d r
  refine bindO_err busWrite_err ?_
  intro _ d r
  exact doDelay_err

theorem reset_all_err {E : Type} {dev : Dht20} {regs : List Nat} {resps : Script E} :
    ∀ out e, reset_all dev regs resps = some out → out.result = Except.error e →
      ∃ e0, e = DHT20Error.I2C e0 := by
  induction regs generalizing dev resps with
  | nil =>
    intro out e h hr
    simp [reset_all] at h
    subst h
    simp at hr
  | cons reg regs ih =>
    unfold reset_all
    refine bindO_err reset_register_err ?_
    intro _ d r
    exact ih

theorem check_init_err {E : Type} {dev : Dht20} {resps : Script E} :
    ∀ out e, check_init dev resps = some out → out.result = Except.error e →
      ∃ e0, e = DHT20Error.I2C e0 := by
  unfold check_init
  refine bindO_err busWriteRead_err ?_
  intro buffer d r
  refine bindO_err ?_ ?_
  · by_cases hs : buffer.headD 0 &&& 0x18 ≠ 0x18
    · rw [if_pos hs]
      exact reset_all_err
    · rw [if_neg hs]
      intro out e h hr
      simp at h
      subst h
      simp at hr
  · intro _ d r
    refine bindO_err doDelay_err ?_
    intro _ d r out e h hr
    simp at h
    subst h
    simp at hr

theorem init_err {E : Type} {dev : Dht20} {resps : Script E} :
    ∀ out e, init dev resps = some out → out.result = Except.error e →
      ∃ e0, e = DHT20Error.I2C e0 := by
  unfold init
  refine bindO_err doDelay_err ?_
  intro _ d r
  exact check_init_err

theorem check_init_cases {E : Type} {dev : Dht20} {resps : Script E} {out : Outcome E Unit}
    (h : check_init dev resps = some out) :
    (∃ e, out.result = Except.error e ∧ out.dev = dev) ∨
    (out.result = Except.ok () ∧ out.dev = { dev with initialized := true }) := by
  unfold check_init at h
  rcases bindO_eq_some h with ⟨out1, e, ho, hr, rfl⟩ | ⟨out1, a, out2, ho, hr, hk, rfl⟩
  · exact Or.inl ⟨e, rfl, busWriteRead_dev _ ho⟩
  · have hd1 : out1.dev = dev := busWriteRead_dev _ ho
    rw [hd1] at hk
    rcases bindO_eq_some hk with ⟨outB, e, hB, hrB, rfl⟩ | ⟨outB, b, out4, hB, hrB, hk2, rfl⟩
    · have hdB : outB.dev = dev := by
        by_cases hs : a.headD 0 &&& 0x18 ≠ 0x18
        · rw [if_pos hs] at hB
          exact reset_all_dev _ hB
        · rw [if_neg hs] at hB
          simp at hB
          subst hB
          rfl
      exact Or.inl ⟨e, rfl, hdB⟩
    · have hdB : outB.dev = dev := by
        by_cases hs : a.headD 0 &&& 0x18 ≠ 0x18
        · rw [if_pos hs] at hB
          exact reset_all_dev _ hB
        · rw [if_neg hs] at hB
          simp at hB
          subst hB
          rfl
      rw [hdB] at hk2
      simp [bindO, doDelay] at hk2
      subst hk2
      exact Or.inr ⟨rfl, rfl⟩

theorem init_cases {E : Type} {dev : Dht20} {resps : Script E} {out : Outcome E Unit}
    (h : init dev resps = some out) :
    (∃ e, out.result = Except.error e ∧ out.dev = dev) ∨
    (out.result = Except.ok () ∧ out.dev = { dev with initialized := true }) := by
  unfold init at h
  rcases bindO_eq_some h with ⟨out1, e, ho, hr, rfl⟩ | ⟨out1, a, out2, ho, hr, hk, rfl⟩
  · simp [doDelay] at ho
    subst ho
    simp at hr
  · simp [doDelay] at ho
    subst ho
    simp at hk
    rcases check_init_cases hk with ⟨e, hre, hde⟩ | ⟨hro, hdo⟩
    · exact Or.inl ⟨e, hre, hde⟩
    · exact Or.inr ⟨hro, hdo⟩

theorem take_reading_dev {E : Type} {dev : Dht20} {resps : Script E} :
    ∀ out, take_reading dev resps = some out → out.dev = dev := by
  unfold take_reading
  by_cases hi : dev.initialized = false
  · rw [if_pos hi]
    intro out h
    simp at h
    subst h
    rfl
  · rw [if_neg hi]
    refine bindO_dev trigger_measurement_dev ?_
    intro _ r
    refine bindO_dev wait_for_ready_dev ?_
    intro _ r
    refine bindO_dev read_measurement_dev ?_
    intro data r out h
    simp at h
    subst h
    rfl

theorem read_raw_dev {E : Type} {dev : Dht20} {resps : Script E} :
    ∀ out, read_raw dev resps = some out → out.dev = dev := by
  unfold read_raw
  by_cases hi : dev.initialized = false
  · rw [if_pos hi]
    intro out h
    simp at h
    subst h
    rfl
  · rw [if_neg hi]
    refine bindO_dev trigger_measurement_dev ?_
    intro _ r
    refine bindO_dev wait_for_ready_dev ?_
    intro _ r
    refine bindO_dev read_measurement_dev ?_
    intro data r out h
    simp at h
    subst h
    rfl

theorem read_measurement_ok_length {E : Type} {dev : Dht20} {resps : Script E}
    {out : Outcome E (List Nat)} {data : List Nat}
    (h : read_measurement dev resps = some out) (hr : out.result = Except.ok data) :
    data.length = 6 := by
  unfold read_measurement at h
  rcases bindO_eq_some h with ⟨out1, e, ho, hr1, rfl⟩ | ⟨out1, a, out2, ho, hr1, hk, rfl⟩
  · simp at hr
  · simp at hr
    by_cases hc : a.getD 6 0 ≠ compute_crc8 (a.take 6)
    · rw [if_pos hc] at hk
      simp at hk
      subst hk
      simp at hr
    · rw [if_neg hc] at hk
      simp at hk
      subst hk
      simp at hr
      have ha : a.length = 7 := busRead_ok_length ho hr1
      rw [← hr]
      simp [List.length_take, ha]

theorem read_raw_ok_length {E : Type} {dev : Dht20} {resps : Script E}
    {out : Outcome E (List Nat)} {data : List Nat}
    (h : read_raw dev resps = some out) (hr : out.result = Except.ok data) :
    data.length = 6 := by
  unfold read_raw at h
  by_cases hi : dev.initialized = false
  · rw [if_pos hi] at h
    simp at h
    subst h
    simp at hr
  · rw [if_neg hi] at h
    rcases bindO_eq_some h with ⟨out1, e, ho, hr1, rfl⟩ | ⟨out1, a, out2, ho, hr1, hk, rfl⟩
    · simp at hr
    · simp at hr
      rcases bindO_eq_some hk with ⟨out3, e, ho2, hr2, rfl⟩ | ⟨out3, b, out4, ho2, hr2, hk2, rfl⟩
      · simp at hr
      · simp at hr
        rcases bindO_eq_some hk2 with ⟨out5, e, ho3, hr3, rfl⟩ | ⟨out5, c, out6, ho3, hr3, hk3, rfl⟩
        · simp at hr
        · simp at hr
          simp at hk3
          subst hk3
          simp at hr
          subst hr
          exact read_measurement_ok_length ho3 hr3

theorem getD_lt_of_bytes {data : List Nat} (h : ∀ b ∈ data, b < 256) (i : Nat) :
    data.getD i 0 < 256 := by
  rw [List.getD_eq_get?]
  cases hg : data.get? i with
  | none => simp
  | some a => simpa using h a (List.get?_mem hg)

/-! ### Claims -/

/-- C2: for every device handle whose flag is false, `take_reading` and
`read_raw` return the not-initialized error immediately, performing no bus
transaction and no delay call (empty action trace, script untouched),
regardless of the bus's behaviour. -/
theorem c2_not_initialized_guard : ∀ (E : Type) (dev : Dht20) (resps : Script E),
    dev.initialized = false →
    take_reading dev resps = some ⟨Except.error DHT20Error.NotInitialized, dev, resps, []⟩ ∧
    read_raw dev resps = some ⟨Except.error DHT20Error.NotInitialized, dev, resps, []⟩ := by
  intro E dev resps h
  constructor <;> simp [take_reading, read_raw, h]

/-- Witness for C2: a fresh handle with an empty script. -/
theorem c2_not_initialized_guard_witness :
    take_reading Dht20.new ([] : Script Unit) =
      some ⟨Except.error DHT20Error.NotInitialized, Dht20.new, [], []⟩ ∧
    read_raw Dht20.new ([] : Script Unit) =
      some ⟨Except.error DHT20Error.NotInitialized, Dht20.new, [], []⟩ :=
  c2_not_initialized_guard Unit Dht20.new [] rfl

/-- C3: `compute_crc8` is CRC-8/NRSC-5: register starts at 0xFF, each byte
is XORed in and shifted 8 times in truncating 8-bit arithmetic with
polynomial 0x31 on a set high bit; the cited corpus values hold and the
cited bit-flip pair differs. -/
theorem c3_compute_crc8_nrsc5 :
    compute_crc8 [] = 0xFF ∧
    compute_crc8 [0xBE, 0xEF, 0x42] = 0x04 ∧
    compute_crc8 [0x42] = 0xF3 ∧
    compute_crc8 [0x12, 0x34, 0x56] ≠ compute_crc8 [0x12, 0x32, 0x57] ∧
    ∀ data b, compute_crc8 (data ++ [b]) = crc8Shift^[8] (compute_crc8 data ^^^ b) := by
  refine ⟨by decide, by decide, by decide, by decide, ?_⟩
  intro data b
  simp [compute_crc8, List.foldl_append, crc8Byte]

/-- C4: on any input of at least 6 bytes, `extract_readings` returns the
two claimed bit-packed fields, ignores byte 0, and both results are 20-bit
values (strictly below 2^20). -/
theorem c4_extract_readings_fields :
    (∀ data : List Nat, 6 ≤ data.length → (∀ b ∈ data, b < 256) →
      extract_readings data =
        (((data.getD 1 0) <<< 12) ||| ((data.getD 2 0) <<< 4) ||| ((data.getD 3 0) >>> 4),
         (((data.getD 3 0) &&& 0x0F) <<< 16) ||| ((data.getD 4 0) <<< 8) ||| (data.getD 5 0)) ∧
      (extract_readings data).1 < 2 ^ 20 ∧ (extract_readings data).2 < 2 ^ 20) ∧
    (∀ b0 b0' rest, extract_readings (b0 :: rest) = extract_readings (b0' :: rest)) := by
  constructor
  · intro data _ hbytes
    have e12 : (2 : Nat) ^ 12 = 4096 := by norm_num
    have e4 : (2 : Nat) ^ 4 = 16 := by norm_num
    have e16 : (2 : Nat) ^ 16 = 65536 := by norm_num
    have e8 : (2 : Nat) ^ 8 = 256 := by norm_num
    have e20 : (2 : Nat) ^ 20 = 1048576 := by norm_num
    refine ⟨rfl, ?_, ?_⟩
    · have h1 : (data.getD 1 0) <<< 12 < 2 ^ 20 := by
        have := getD_lt_of_bytes hbytes 1
        rw [Nat.shiftLeft_eq, e12, e20]
        omega
      have h2 : (data.getD 2 0) <<< 4 < 2 ^ 20 := by
        have := getD_lt_of_bytes hbytes 2
        rw [Nat.shiftLeft_eq, e4, e20]
        omega
      have h3 : (data.getD 3 0) >>> 4 < 2 ^ 20 := by
        have := getD_lt_of_bytes hbytes 3
        rw [Nat.shiftRight_eq_div_pow, e4, e20]
        omega
      exact Nat.or_lt_two_pow (Nat.or_lt_two_pow h1 h2) h3
    · have h1 : ((data.getD 3 0) &&& 0x0F) <<< 16 < 2 ^ 20 := by
        have : (data.getD 3 0) &&& 0x0F ≤ 0x0F := Nat.and_le_right
        rw [Nat.shiftLeft_eq, e16, e20]
        omega
      have h2 : (data.getD 4 0) <<< 8 < 2 ^ 20 := by
        have := getD_lt_of_bytes hbytes 4
        rw [Nat.shiftLeft_eq, e8, e20]
        omega
      have h3 : data.getD 5 0 < 2 ^ 20 := by
        have := getD_lt_of_bytes hbytes 5
        rw [e20]
        omega
      exact Nat.or_lt_two_pow (Nat.or_lt_two_pow h1 h2) h3
  · intro b0 b0' rest
    rfl

/-- Witness for C4: the spec's worked example, 7-byte form. -/
theorem c4_extract_readings_fields_witness :
    extract_readings [0x18, 0x80, 0x00, 0x00, 0x06, 0x66, 0x66] =
      ((([0x18, 0x80, 0x00, 0x00, 0x06, 0x66, 0x66].getD 1 0) <<< 12) |||
         (([0x18, 0x80, 0x00, 0x00, 0x06, 0x66, 0x66].getD 2 0) <<< 4) |||
         (([0x18, 0x80, 0x00, 0x00, 0x06, 0x66, 0x66].getD 3 0) >>> 4),
       ((([0x18, 0x80, 0x00, 0x00, 0x06, 0x66, 0x66].getD 3 0) &&& 0x0F) <<< 16) |||
         (([0x18, 0x80, 0x00, 0x00, 0x06, 0x66, 0x66].getD 4 0) <<< 8) |||
         ([0x18, 0x80, 0x00, 0x00, 0x06, 0x66, 0x66].getD 5 0)) ∧
    (extract_readings [0x18, 0x80, 0x00, 0x00, 0x06, 0x66, 0x66]).1 < 2 ^ 20 ∧
    (extract_readings [0x18, 0x80, 0x00, 0x00, 0x06, 0x66, 0x66]).2 < 2 ^ 20 :=
  c4_extract_readings_fields.1 [0x18, 0x80, 0x00, 0x00, 0x06, 0x66, 0x66]
    (by decide) (by decide)

/-- C5: the scaling functions compute raw / 2^20 * 100 and
raw / 2^20 * 200 − 50 (exact arithmetic; the cited `f32` evaluations are
exact), the cited values hold, and humidity stays within [0, 100] for
every 20-bit raw value. -/
theorem c5_scaling :
    (∀ raw : Nat, convert_humidity raw = (raw : ℚ) / 2 ^ 20 * 100) ∧
    (∀ raw : Nat, convert_temperature raw = (raw : ℚ) / 2 ^ 20 * 200 - 50) ∧
    convert_humidity 0x80000 = 50 ∧
    convert_temperature 0x60000 = 25 ∧
    (∀ raw : Nat, raw < 2 ^ 20 → 0 ≤ convert_humidity raw ∧ convert_humidity raw ≤ 100) := by
  refine ⟨fun raw => by norm_num [convert_humidity],
    fun raw => by norm_num [convert_temperature],
    by norm_num [convert_humidity],
    by norm_num [convert_temperature], ?_⟩
  intro raw h
  constructor
  · unfold convert_humidity
    positivity
  · unfold convert_humidity
    have hq : (raw : ℚ) ≤ 1048576 := by
      have : raw ≤ 1048576 := by omega
      exact_mod_cast this
    rw [div_mul_eq_mul_div, div_le_iff (by norm_num)]
    linarith

/-- Witness for C5: the 50 %RH raw value is in bounds. -/
theorem c5_scaling_witness :
    0 ≤ convert_humidity 0x80000 ∧ convert_humidity 0x80000 ≤ 100 :=
  c5_scaling.2.2.2.2 0x80000 (by norm_num)

/-- C7: the flag is a monotone state-machine invariant: a new handle starts
with `initialized = false`; `init` sets it exactly on success and leaves the
handle unchanged on error; `take_reading` and `read_raw` never change the
handle, so no operation resets the flag from true to false. -/
theorem c7_initialized_flag_monotone :
    Dht20.new.initialized = false ∧
    (∀ (E : Type) (dev : Dht20) (resps : Script E) (out : Outcome E Unit),
      init dev resps = some out →
      (∀ e, out.result = Except.error e → out.dev = dev) ∧
      (out.result = Except.ok () → out.dev = { dev with initialized := true }) ∧
      (dev.initialized = true → out.dev.initialized = true)) ∧
    (∀ (E : Type) (dev : Dht20) (resps : Script E) (out : Outcome E DHTReading),
      take_reading dev resps = some out → out.dev = dev) ∧
    (∀ (E : Type) (dev : Dht20) (resps : Script E) (out : Outcome E (List Nat)),
      read_raw dev resps = some out → out.dev = dev) := by
  refine ⟨rfl, ?_, ?_, ?_⟩
  · intro E dev resps out h
    rcases init_cases h with ⟨e, hre, hde⟩ | ⟨hro, hdo⟩
    · refine ⟨fun e1 _ => hde, fun ho => ?_, fun hi => ?_⟩
      · rw [hre] at ho
        simp at ho
      · rw [hde]
        exact hi
    · refine ⟨fun e1 h1 => ?_, fun _ => hdo, fun _ => ?_⟩
      · rw [hro] at h1
        simp at h1
      · rw [hdo]
  · intro E dev resps out h
    exact take_reading_dev _ h
  · intro E dev resps out h
    exact read_raw_dev _ h

set_option maxRecDepth 10000 in
/-- Witness for C7: a concrete successful `init` run on a calibrated status
byte sets the flag. -/
theorem c7_initialized_flag_monotone_witness :
    (⟨Except.ok (), { Dht20.new with initialized := true }, [],
      [Action.delayMs 100, Action.writeRead 0x38 [0x71] 1, Action.delayMs 10]⟩ :
        Outcome Unit Unit).dev = { Dht20.new with initialized := true } :=
  (c7_initialized_flag_monotone.2.1 Unit Dht20.new [Except.ok [0x18]]
    ⟨Except.ok (), { Dht20.new with initialized := true }, [],
      [Action.delayMs 100, Action.writeRead 0x38 [0x71] 1, Action.delayMs 10]⟩
    (by rfl)).2.1 rfl

/-- C9: `take_reading` and `read_raw` run the identical transaction/delay
sequence, fail identically, and on success `take_reading` is exactly
`read_raw` followed by decode (`extract_readings` then the two scalings). -/
theorem c9_take_reading_is_decoded_read_raw :
    ∀ (E : Type) (dev : Dht20) (resps : Script E),
      take_reading dev resps = (read_raw dev resps).map (Outcome.mapResult decodeReading) := by
  intro E dev resps
  by_cases hi : dev.initialized = false
  · simp [take_reading, read_raw, hi, Outcome.mapResult, Except.map]
  · simp only [take_reading, read_raw, if_neg hi]
    refine bindO_map _ _ _ _ ?_
    intro a d r
    refine bindO_map _ _ _ _ ?_
    intro a d r
    refine bindO_map _ _ _ _ ?_
    intro data d r
    rfl

/-- C10: the driver never passes `extract_readings` (or the array
conversion) anything but a 6-byte payload: every successful `read_raw`
result has length exactly 6, so indices 0–5 are in bounds. -/
theorem c10_payload_always_six_bytes :
    ∀ (E : Type) (dev : Dht20) (resps : Script E) (out : Outcome E (List Nat))
      (data : List Nat),
      read_raw dev resps = some out → out.result = Except.ok data →
      data.length = 6 ∧ ∀ i, i < 6 → i < data.length := by
  intro E dev resps out data h hr
  have h6 := read_raw_ok_length h hr
  exact ⟨h6, by omega⟩

set_option maxRecDepth 10000 in
/-- Witness for C10: a concrete successful fetch returns 6 bytes. -/
theorem c10_payload_always_six_bytes_witness :
    ([0x18, 0x80, 0x00, 0x00, 0x06, 0x66] : List Nat).length = 6 ∧
    ∀ i, i < 6 → i < ([0x18, 0x80, 0x00, 0x00, 0x06, 0x66] : List Nat).length :=
  c10_payload_always_six_bytes Unit { Dht20.new with initialized := true }
    [Except.ok [], Except.ok [0x00], Except.ok [0x18, 0x80, 0x00, 0x00, 0x06, 0x66, 0xC1]]
    ⟨Except.ok [0x18, 0x80, 0x00, 0x00, 0x06, 0x66], { Dht20.new with initialized := true },
      [], [Action.write 0x38 [0xAC, 0x33, 0x00], Action.delayMs 80,
        Action.writeRead 0x38 [0x71] 1, Action.read 0x38 7]⟩
    [0x18, 0x80, 0x00, 0x00, 0x06, 0x66] (by rfl) rfl

/-- C1: the fetch-and-validate step compares the 7th fetched byte against
`compute_crc8` of the first 6 for every bus response; on a difference both
`read_raw` and `take_reading` fail with the checksum-mismatch error and no
payload or reading is produced, and on a match the 6 payload bytes (resp.
their decoding) are returned. -/
theorem c1_checksum_gate :
    ∀ (E : Type) (dev : Dht20) (w p bs : List Nat) (rest : Script E),
    dev.initialized = true →
    (fill 1 p).headD 0 &&& 0x80 = 0 →
    (∀ bs0 (rest0 : Script E),
      read_measurement dev (Except.ok bs0 :: rest0) =
        some ⟨if (fill 7 bs0).getD 6 0 ≠ compute_crc8 ((fill 7 bs0).take 6) then
            Except.error DHT20Error.CrcMismatch
          else Except.ok ((fill 7 bs0).take 6),
          dev, rest0, [Action.read dev.address 7]⟩) ∧
    ((fill 7 bs).getD 6 0 ≠ compute_crc8 ((fill 7 bs).take 6) →
      read_raw dev (Except.ok w :: Except.ok p :: Except.ok bs :: rest) =
        some ⟨Except.error DHT20Error.CrcMismatch, dev, rest,
          [Action.write dev.address [0xAC, 0x33, 0x00], Action.delayMs 80,
           Action.writeRead dev.address [0x71] 1, Action.read dev.address 7]⟩ ∧
      take_reading dev (Except.ok w :: Except.ok p :: Except.ok bs :: rest) =
        some ⟨Except.error DHT20Error.CrcMismatch, dev, rest,
          [Action.write dev.address [0xAC, 0x33, 0x00], Action.delayMs 80,
           Action.writeRead dev.address [0x71] 1, Action.read dev.address 7]⟩) ∧
    ((fill 7 bs).getD 6 0 = compute_crc8 ((fill 7 bs).take 6) →
      read_raw dev (Except.ok w :: Except.ok p :: Except.ok bs :: rest) =
        some ⟨Except.ok ((fill 7 bs).take 6), dev, rest,
          [Action.write dev.address [0xAC, 0x33, 0x00], Action.delayMs 80,
           Action.writeRead dev.address [0x71] 1, Action.read dev.address 7]⟩ ∧
      take_reading dev (Except.ok w :: Except.ok p :: Except.ok bs :: rest) =
        some ⟨Except.ok (decodeReading ((fill 7 bs).take 6)), dev, rest,
          [Action.write dev.address [0xAC, 0x33, 0x00], Action.delayMs 80,
           Action.writeRead dev.address [0x71] 1, Action.read dev.address 7]⟩) := by
  intro E dev w p bs rest hi hp
  have hi2 : ¬ dev.initialized = false := by simp [hi]
  have hp2 : (fill 1 p).head?.getD 0 &&& 0x80 = 0 := by
    rw [← List.headD_eq_head?_getD]
    exact hp
  refine ⟨?_, ?_, ?_⟩
  · intro bs0 rest0
    rcases eq_or_ne ((fill 7 bs0).getD 6 0) (compute_crc8 ((fill 7 bs0).take 6)) with hc | hc
    · have hc2 : (fill 7 bs0)[6]?.getD 0 = compute_crc8 ((fill 7 bs0).take 6) := by
        rw [← List.getD_eq_getElem?_getD]
        exact hc
      simp [read_measurement, bindO, busRead, hc, hc2]
    · have hc2 : ¬ (fill 7 bs0)[6]?.getD 0 = compute_crc8 ((fill 7 bs0).take 6) := by
        rw [← List.getD_eq_getElem?_getD]
        exact hc
      simp [read_measurement, bindO, busRead, hc, hc2]
  · intro hm
    have hm2 : ¬ (fill 7 bs)[6]?.getD 0 = compute_crc8 ((fill 7 bs).take 6) := by
      rw [← List.getD_eq_getElem?_getD]
      exact hm
    constructor <;>
      simp [read_raw, take_reading, hi2, trigger_measurement, bindO, busWrite, doDelay,
        wait_for_ready, OpCode.StatusReady, OpCode.CheckStatus, OpCode.TriggerMeasurement,
        hp2, read_measurement, busRead, hm2, decodeReading]
  · intro hm
    have hm2 : (fill 7 bs)[6]?.getD 0 = compute_crc8 ((fill 7 bs).take 6) := by
      rw [← List.getD_eq_getElem?_getD]
      exact hm
    constructor <;>
      simp [read_raw, take_reading, hi2, trigger_measurement, bindO, busWrite, doDelay,
        wait_for_ready, OpCode.StatusReady, OpCode.CheckStatus, OpCode.TriggerMeasurement,
        hp2, read_measurement, busRead, hm2, decodeReading]

set_option maxRecDepth 10000 in
/-- Witness for C1: a payload whose checksum byte is wrong (0x00 where the
CRC of the first 6 bytes is 0xC1) is rejected; fixing the byte to 0xC1
yields the payload. -/
theorem c1_checksum_gate_witness :
    (read_raw { Dht20.new with initialized := true }
        ([Except.ok [], Except.ok [0x00],
          Except.ok [0x18, 0x80, 0x00, 0x00, 0x06, 0x66, 0x00]] : Script Unit) =
      some ⟨Except.error DHT20Error.CrcMismatch, { Dht20.new with initialized := true }, [],
        [Action.write 0x38 [0xAC, 0x33, 0x00], Action.delayMs 80,
         Action.writeRead 0x38 [0x71] 1, Action.read 0x38 7]⟩) ∧
    (read_raw { Dht20.new with initialized := true }
        ([Except.ok [], Except.ok [0x00],
          Except.ok [0x18, 0x80, 0x00, 0x00, 0x06, 0x66, 0xC1]] : Script Unit) =
      some ⟨Except.ok ((fill 7 [0x18, 0x80, 0x00, 0x00, 0x06, 0x66, 0xC1]).take 6),
        { Dht20.new with initialized := true }, [],
        [Action.write 0x38 [0xAC, 0x33, 0x00], Action.delayMs 80,
         Action.writeRead 0x38 [0x71] 1, Action.read 0x38 7]⟩) :=
  And.intro
    ((c1_checksum_gate Unit { Dht20.new with initialized := true } [] [0x00]
        [0x18, 0x80, 0x00, 0x00, 0x06, 0x66, 0x00] [] rfl (by decide)).2.1 (by decide)).1
    ((c1_checksum_gate Unit { Dht20.new with initialized := true } [] [0x00]
        [0x18, 0x80, 0x00, 0x00, 0x06, 0x66, 0xC1] [] rfl (by decide)).2.2 (by decide)).1

/-- C6: after the 0x71 status query, a status byte with both bits of 0x18
set leads straight to the 10 ms settle and success with no recalibration
write; otherwise exactly three register-reset sequences run, for 0x1B,
0x1C, 0x1E in that order, each write / 5 ms / write-read 3 / 5 ms /
write-back with mask 0xB0 / 5 ms; and any bus error during initialization
surfaces as a transport (I2C) error. -/
theorem c6_recalibration_protocol :
    ∀ (E : Type) (dev : Dht20) (s : List Nat) (rest : Script E),
    (((fill 1 s).headD 0 &&& 0x18 = 0x18 →
      check_init dev (Except.ok s :: rest) =
        some ⟨Except.ok (), { dev with initialized := true }, rest,
          [Action.writeRead dev.address [0x71] 1, Action.delayMs 10]⟩) ∧
    ((fill 1 s).headD 0 &&& 0x18 ≠ 0x18 →
      ∀ a1 b1 c1 a2 b2 c2 a3 b3 c3 : List Nat,
      check_init dev (Except.ok s :: Except.ok a1 :: Except.ok b1 :: Except.ok c1 ::
          Except.ok a2 :: Except.ok b2 :: Except.ok c2 ::
          Except.ok a3 :: Except.ok b3 :: Except.ok c3 :: rest) =
        some ⟨Except.ok (), { dev with initialized := true }, rest,
          Action.writeRead dev.address [0x71] 1 ::
            (regResetTrace dev.address 0x1B b1 ++ regResetTrace dev.address 0x1C b2 ++
             regResetTrace dev.address 0x1E b3 ++ [Action.delayMs 10])⟩) ∧
    (∀ (resps : Script E) (out : Outcome E Unit) (e : DHT20Error E),
      init dev resps = some out → out.result = Except.error e →
      ∃ e0, e = DHT20Error.I2C e0)) := by
  intro E dev s rest
  refine ⟨?_, ?_, ?_⟩
  · intro h
    have h2 : (fill 1 s).head?.getD 0 &&& 0x18 = 0x18 := by
      rw [← List.headD_eq_head?_getD]
      exact h
    simp [check_init, bindO, busWriteRead, doDelay, OpCode.CheckStatus, h2]
  · intro h a1 b1 c1 a2 b2 c2 a3 b3 c3
    have h2 : ¬ (fill 1 s).head?.getD 0 &&& 0x18 = 0x18 := by
      rw [← List.headD_eq_head?_getD]
      exact h
    simp [check_init, bindO, busWriteRead, busWrite, doDelay, reset_all, reset_register,
      RESET_REGISTERS, regResetTrace, OpCode.CheckStatus, h2]
  · intro resps out e h hr
    exact init_err _ _ h hr

set_option maxRecDepth 10000 in
/-- Witness for C6: a calibrated status byte (0x18) yields a run with no
recalibration write, and a bus error during the status query surfaces as a
transport error. -/
theorem c6_recalibration_protocol_witness :
    (check_init Dht20.new ([Except.ok [0x18]] : Script Unit) =
      some ⟨Except.ok (), { Dht20.new with initialized := true }, [],
        [Action.writeRead 0x38 [0x71] 1, Action.delayMs 10]⟩) ∧
    (check_init Dht20.new ([Except.ok [0x00], Except.ok [], Except.ok [0xAA, 0xBB, 0xCC],
        Except.ok [], Except.ok [], Except.ok [0x01, 0x02, 0x03], Except.ok [],
        Except.ok [], Except.ok [], Except.ok []] : Script Unit) =
      some ⟨Except.ok (), { Dht20.new with initialized := true }, [],
        Action.writeRead 0x38 [0x71] 1 ::
          (regResetTrace 0x38 0x1B [0xAA, 0xBB, 0xCC] ++
           regResetTrace 0x38 0x1C [0x01, 0x02, 0x03] ++
           regResetTrace 0x38 0x1E [] ++ [Action.delayMs 10])⟩) ∧
    (∃ e0 : Unit, DHT20Error.I2C () = DHT20Error.I2C e0) :=
  And.intro
    ((c6_recalibration_protocol Unit Dht20.new [0x18] []).1 (by decide))
    (And.intro
      ((c6_recalibration_protocol Unit Dht20.new [0x00] []).2.1 (by decide)
        [] [0xAA, 0xBB, 0xCC] [] [] [0x01, 0x02, 0x03] [] [] [] [])
      ((c6_recalibration_protocol Unit Dht20.new [0x00] []).2.2
        [Except.error ()]
        ⟨Except.error (DHT20Error.I2C ()), Dht20.new, [],
          [Action.delayMs 100, Action.writeRead 0x38 [0x71] 1]⟩
        (DHT20Error.I2C ()) (by rfl) rfl))

set_option maxRecDepth 10000 in
/-- C8 (divergence evidence): on an initialized handle, the poll loop of
`take_reading` triggers with `[0xAC, 0x33, 0x00]`, delays 80 ms, polls with
0x71 until bit 0x80 clears — but between consecutive polls the source
invokes the delay primitive with 0 ms, not the 10 ms the specification
(and the source's own comment) require; the run below polls twice and its
trace records `delayMs 0`, never `delayMs 10`. -/
theorem c8_inter_poll_delay_is_zero :
    take_reading { Dht20.new with initialized := true }
        ([Except.ok [], Except.ok [0x80], Except.error ()] : Script Unit) =
      some ⟨Except.error (DHT20Error.I2C ()), { Dht20.new with initialized := true }, [],
        [Action.write 0x38 [0xAC, 0x33, 0x00], Action.delayMs 80,
         Action.writeRead 0x38 [0x71] 1, Action.delayMs 0,
         Action.writeRead 0x38 [0x71] 1]⟩ ∧
    Action.delayMs 10 ∉
      [Action.write 0x38 [0xAC, 0x33, 0x00], Action.delayMs 80,
       Action.writeRead 0x38 [0x71] 1, Action.delayMs 0,
       Action.writeRead 0x38 [0x71] 1] := by
  exact ⟨by rfl, by decide⟩

end TempLogger
